import Mathlib

open scoped List

/-!
# PlayNext recommendation engine — verification development

Shallow embedding of the PlayNext game-recommendation engine
(`recommender.py`, `steam_api.py`, `app.py`) and proofs about it.

Conventions of the embedding:
* Python ints are `Nat`/`Int`; Python floats that only ever hold exact
  small values (prices in cents divided by 100, timestamps, playtime means)
  are `ℚ`.  All quantities reachable in this program are far below 2^52,
  where `ℚ` and IEEE doubles agree on every comparison and rounding used.
* The external Steam API (`steam_api.py`) and the `dateutil` date parser
  are collaborators: they are passed in as function parameters
  (`fetch : Nat → Option GameDetails`, `parseDate : String → Option ℚ`).
  `none` models Python `None` (and a falsy empty payload).
* The `ThreadPoolExecutor`/`as_completed` completion order of the fan-out
  is nondeterministic; it is modelled by an explicit `arrival : List Nat`
  parameter giving the order in which per-candidate results are collected.
* Python `dict`s with insertion order are association lists
  (`List (key × value)`); `collections.Counter.most_common(n)` is a stable
  descending sort by count, ties kept in first-insertion order.
-/

/-- Python `round(n / 10)` for a nonnegative integer `n`: the quotient
`n / 10` rounded to the nearest integer, halves to even (Python 3 / IEEE
round-half-even; `n/10` with a remainder of exactly 5 is a representable
binary half, so the float round agrees with the exact rational round for
every realizable score). -/
def pyRoundDiv10 (n : Nat) : Nat :=
  let q := n / 10
  let r := n % 10
  if r < 5 then q
  else if 5 < r then q + 1
  else if q % 2 = 0 then q else q + 1

/-- Helper `firstOccAux seen l`: the elements of `l` not in `seen`, first
occurrence of each, in order of first occurrence.  This is the key order
of a Python dict/`Counter` built by successive insertion. -/
def firstOccAux (seen : List String) : List String → List String
  | [] => []
  | x :: rest =>
    if x ∈ seen then firstOccAux seen rest
    else x :: firstOccAux (x :: seen) rest

/-- Distinct elements of `l` in order of first occurrence. -/
def firstOcc (l : List String) : List String := firstOccAux [] l

/-- Python `collections.Counter(l).most_common n`, keys only: the distinct
elements of `l` sorted by multiplicity in `l`, descending, stably (ties
keep first-occurrence order), truncated to `n`. -/
def mostCommon (n : Nat) (l : List String) : List String :=
  ((firstOcc l).mergeSort (fun a b => decide (l.count b ≤ l.count a))).take n

/-- Python `d.get(k, default)` on an association list. -/
def lookupD (m : List (String × Nat)) (k : String) (d : Nat) : Nat :=
  match m.lookup k with
  | some v => v
  | none => d

/-- Python `d[k] = d.get(k, 0) + w` on an insertion-ordered association
list: bump an existing key in place, else append the new key at the end. -/
def incWeight (m : List (String × Nat)) (k : String) (w : Nat) : List (String × Nat) :=
  match m with
  | [] => [(k, w)]
  | (a, v) :: rest => if a = k then (a, v + w) :: rest else (a, v) :: incWeight rest k w

/-- Python `s.replace(pat, '')` on character lists: remove every
non-overlapping occurrence of `pat`, scanning left to right
(`pat` is nonempty at every use site). -/
def removeOcc (pat : List Char) : List Char → List Char
  | [] => []
  | c :: rest =>
    if pat.isPrefixOf (c :: rest) then removeOcc pat (rest.drop (pat.length - 1))
    else c :: removeOcc pat rest
termination_by l => l.length
decreasing_by
  · simp only [List.length_drop, List.length_cons]
    omega
  · simp only [List.length_cons]
    omega

/-- Python `pat in s` (substring containment) on character lists. -/
def containsSub (pat : List Char) : List Char → Bool
  | [] => pat.isEmpty
  | c :: rest => pat.isPrefixOf (c :: rest) || containsSub pat rest

/-- Python `s.strip()`: drop whitespace from both ends. -/
def pyStrip (l : List Char) : List Char :=
  ((l.dropWhile Char.isWhitespace).reverse.dropWhile Char.isWhitespace).reverse

/-- Source `recommender.py:209`: `name.split(':')[0].split('-')[0].strip()` —
truncate the display name at the first colon, then at the first hyphen,
then trim whitespace. -/
def baseNameOf (name : String) : String :=
  String.mk (pyStrip ((name.toList.takeWhile (· ≠ ':')).takeWhile (· ≠ '-')))

/-- Source `recommender.py:416-420`: the dedup normalization applied to a
base-name key: lowercase, then `.replace('the ', '')` (every occurrence),
then `.replace(':', '')`, `.replace('-', '')`, `.replace(' ', '')`
(single-character removals are written as filters). -/
def normalizeName (s : String) : String :=
  let step1 := s.toList.map Char.toLower
  let step2 := removeOcc "the ".toList step1
  let step3 := step2.filter (fun c => !(c == ':'))
  let step4 := step3.filter (fun c => !(c == '-'))
  let step5 := step4.filter (fun c => !(c == ' '))
  String.mk step5

/-- The normalization as the spec sentence describes it (for comparison
with `normalizeName`): lowercase, strip one *leading* `"the "`, then strip
colons, hyphens and spaces. -/
def normalizeNameSpec (s : String) : String :=
  let low := s.toList.map Char.toLower
  let stripped := if "the ".toList.isPrefixOf low then low.drop 4 else low
  String.mk (stripped.filter (fun c => !(c == ':' || c == '-' || c == ' ')))

/-- An `EngagementRecord` (one entry of the owned-games list from
`IPlayerService/GetOwnedGames`): the fields the engine reads. -/
structure EngagementRecord where
  appid : Nat
  playtime_forever : Nat
deriving DecidableEq, Repr, Inhabited

/-- The `price_overview` block of an appdetails payload; `initial`/`final`
are prices in cents (`.get(_, 0)` defaults already applied). -/
structure PriceInfo where
  initial : Nat
  final : Nat
  discount_percent : Nat
deriving DecidableEq, Repr, Inhabited

/-- An appdetails payload as the engine reads it.  `Option` fields model
`'key' in details` presence checks; plain fields carry the `.get` default
(`gtype` defaults to `"game"`, `release_date` to `"TBA"`, `metacritic`
to `0`).  `recTotal` is `details['recommendations']['total']`, present
only when both keys are. -/
structure GameDetails where
  name : String
  gtype : String
  genres : Option (List String)
  categories : Option (List String)
  recTotal : Option Nat
  metacritic : Nat
  price_overview : Option PriceInfo
  release_date : String
  header_image : String
  short_description : String
  developers : List String
  publishers : List String
deriving DecidableEq, Repr, Inhabited

/-- The recommendation dict built at `recommender.py:315-336`. -/
structure GameRec where
  name : String
  base_name : String
  app_id : Nat
  steam_rating : Nat
  metacritic_rating : Nat
  rating : Nat
  price : ℚ
  current_price : ℚ
  discount_percent : Nat
  on_sale : Bool
  tags : List String
  match_score : Nat
  header_image : String
  description : String
  categories : List String
  developers : String
  publishers : String
  release_date : String
  release_timestamp : ℚ
  reasons : List String
deriving DecidableEq, Repr, Inhabited

/-- Source `recommender.py:160-188` `_is_base_game`: a non-`'game'` (and
non-empty, since Python tests `game_type and ...`) type, or any keyword of
the exclusion list occurring in the lowercased name, disqualifies. -/
def dlcKeywords : List String := [
  "dlc", "expansion", "season pass", "bundle", "pack",
  "premium edition", "deluxe edition", "ultimate edition",
  "gold edition", "complete edition", "goty", "game of the year",
  "collector", "special edition", "enhanced edition",
  "soundtrack", "artbook", "cosmetic", "upgrade", "definitive edition",
  "digital deluxe", "limited edition", "founders", "starter pack",
  "bonus content", "cosmetic pack", "season", "chapter",
  "episode", "supporter pack", "imperial edition", "royal edition",
  "legendary edition", "exclusive edition", "premium upgrade",
  "upgrade pack", "content pack", "bonus pack", "pre-order",
  "special pack", "collection pack", "mega pack", "master collection",
  "anniversary edition", "remastered", "game + ", "+ dlc",
  "complete pack", "full pack", "everything pack", "all dlc"]

def isBaseGame (name : String) (game_type : String) : Bool :=
  let name_lower := name.toList.map Char.toLower
  if game_type ≠ "" ∧ game_type ≠ "game" then false
  else !(dlcKeywords.any (fun kw => containsSub kw.toList name_lower))

/-- Source `recommender.py:236-248`: synthesize a rating from the review count;
`none` models an absent `recommendations`/`total` key, leaving the
initial `steam_rating = 0`. -/
def steamRatingOf : Option Nat → Nat
  | none => 0
  | some total =>
    if 100000 < total then 90
    else if 50000 < total then 85
    else if 10000 < total then 80
    else if 1000 < total then 75
    else 70

/-- Source `recommender.py:250-251`: metacritic score when positive, else the
synthesized steam rating. -/
def ratingOf (d : GameDetails) : Nat :=
  if 0 < d.metacritic then d.metacritic else steamRatingOf d.recTotal

/-- Source `recommender.py:221-230`: the weighted match score of a candidate
against the signal set — sum of `tag_weights.get(tag, 1)` over distinct
matching tags plus the count of distinct matching categories, divided by
10, rounded, capped at 10. -/
def matchScoreOf (d : GameDetails) (target_tags target_categories : List String)
    (tag_weights : List (String × Nat)) : Nat :=
  let game_tags := d.genres.getD []
  let game_categories := d.categories.getD []
  let matching_tags := (firstOcc game_tags).filter (fun t => decide (t ∈ target_tags))
  let matching_categories :=
    (firstOcc game_categories).filter (fun c => decide (c ∈ target_categories))
  let weighted_score := (matching_tags.map (fun t => lookupD tag_weights t 1)).sum
  let category_score := matching_categories.length
  min 10 (pyRoundDiv10 (weighted_score + category_score))

/-- Source `recommender.py:267-274`: the price-range filter — compare the
current price when on sale, else the original price. -/
def priceRangeExcludes (price_range : Option (ℚ × ℚ)) (on_sale : Bool)
    (original current : ℚ) : Bool :=
  match price_range with
  | none => false
  | some (lo, hi) =>
    if on_sale then !(decide (lo ≤ current ∧ current ≤ hi))
    else !(decide (lo ≤ original ∧ original ≤ hi))

/-- Source `recommender.py:276-283`: the rating filter — the effective minimum
is relaxed by 20 points (floored at 0) on sale, and a derived rating of 0
never triggers it. -/
def ratingFilterExcludes (rating : Nat) (min_rating : Int) (on_sale : Bool) : Bool :=
  let effective_min_rating : Int := if on_sale then max 0 (min_rating - 20) else min_rating
  decide (0 < rating) && decide ((rating : Int) < effective_min_rating)

/-- Source `recommender.py:190-336` `_fetch_and_process_game`: evaluate one
candidate id against the signal set.  `fetch` is the cached detail lookup
(`None` and falsy-empty payloads are `none`), `parseDate` the `dateutil`
parser (`none` models a parse exception), `now` the current Unix time.
Returns `none` for every exclusion path. -/
def fetchAndProcessGame (fetch : Nat → Option GameDetails) (parseDate : String → Option ℚ)
    (now : ℚ) (app_id : Nat) (owned_app_ids : List Nat)
    (target_tags target_categories : List String) (tag_weights : List (String × Nat))
    (min_rating : Int) (price_range : Option (ℚ × ℚ)) (show_recent_only : Bool) :
    Option GameRec :=
  if app_id ∈ owned_app_ids then none
  else match fetch app_id with
  | none => none
  | some details =>
    let game_name := details.name
    let game_type := details.gtype
    if !isBaseGame game_name game_type then none
    else
      let base_name := baseNameOf game_name
      let game_tags := details.genres.getD []
      let game_categories := details.categories.getD []
      let matching_tags := (firstOcc game_tags).filter (fun t => decide (t ∈ target_tags))
      let normalized_score := matchScoreOf details target_tags target_categories tag_weights
      if normalized_score = 0 then none
      else
        let steam_rating := steamRatingOf details.recTotal
        let metacritic_score := details.metacritic
        let rating := ratingOf details
        let original_price : ℚ := match details.price_overview with
          | some p => (p.initial : ℚ) / 100
          | none => 0
        let current_price : ℚ := match details.price_overview with
          | some p => (p.final : ℚ) / 100
          | none => 0
        let discount_percent : Nat := match details.price_overview with
          | some p => p.discount_percent
          | none => 0
        let on_sale : Bool := match details.price_overview with
          | some p => decide (0 < p.discount_percent)
          | none => false
        if priceRangeExcludes price_range on_sale original_price current_price then none
        else if ratingFilterExcludes rating min_rating on_sale then none
        else
          let release_date := details.release_date
          let parsed := if release_date = "TBA" then none else parseDate release_date
          let release_timestamp : ℚ := parsed.getD 0
          if show_recent_only && parsed.isSome && decide (release_timestamp < now - 31536000)
          then none
          else some {
            name := game_name
            base_name := base_name
            app_id := app_id
            steam_rating := steam_rating
            metacritic_rating := metacritic_score
            rating := rating
            price := original_price
            current_price := current_price
            discount_percent := discount_percent
            on_sale := on_sale
            tags := matching_tags
            match_score := normalized_score
            header_image := details.header_image
            description := details.short_description
            categories := game_categories.take 15
            developers := String.intercalate ", " details.developers
            publishers := String.intercalate ", " details.publishers
            release_date := release_date
            release_timestamp := release_timestamp
            reasons := (matching_tags.map (fun t => "You enjoy " ++ t ++ " games")).take 3 }

/-- Source `recommender.py:344-376`: the fixed candidate catalog, as listed
(the Python code then deduplicates it with `list(set(...))`, whose order
is unspecified — hence the explicit `arrival` parameter below). -/
def popularGames : List Nat := [
  1086940, 1174180, 1091500, 1203220, 1938090, 2073850, 1172470, 1245620,
  730, 578080, 271590, 2357570, 1966720, 1817070, 1623730,
  1142710, 1593500, 1151640, 1085660, 1675200, 2369390,
  105600, 252490, 346110, 413150, 892970, 1665460, 1089350, 975370, 2050650,
  394360, 281990, 1888160, 1517290, 1778820, 2428980, 359550, 236850,
  2358720, 1568590, 1449560, 2277680, 1794680, 1118200, 1145360, 457140,
  570, 440, 4000, 1258080, 813780,
  255710, 294100, 526870, 1599340, 1404750, 1928980, 323190, 244850,
  292030, 427520, 548430, 231430, 367520, 289070, 648800,
  1203630, 1888930, 1145350, 1817230, 2239550, 1184370, 1418630, 1551360, 1449850,
  1811260, 1235140,
  774361, 306130, 262060, 678960, 976730,
  287700, 242760, 312530, 48700, 220200, 239140, 377160, 582010,
  253230, 214770, 388880, 236090, 257850, 105600, 383120,
  8930, 620, 10, 20, 30, 40, 50, 60, 70, 80, 100, 130,
  400, 420, 500, 550]

/-- Source `recommender.py:406-432`, the collection loop of
`_find_matching_games_parallel`: process candidate ids in arrival order;
a result whose normalized base name matches a previously kept raw key is
a duplicate and is dropped, otherwise its raw base name is recorded and
the result kept. -/
def collectDedup (proc : Nat → Option GameRec) (seen : List String) :
    List Nat → List GameRec
  | [] => []
  | id :: rest =>
    match proc id with
    | none => collectDedup proc seen rest
    | some result =>
      if seen.any (fun existing => normalizeName existing == normalizeName result.base_name)
      then collectDedup proc seen rest
      else result :: collectDedup proc (seen ++ [result.base_name]) rest

/-- Function `_find_matching_games_parallel`, with the nondeterministic
`as_completed` completion order made explicit as `arrival`. -/
def findMatchingGames (proc : Nat → Option GameRec) (arrival : List Nat) : List GameRec :=
  collectDedup proc [] arrival

/-- The signal set extracted at `recommender.py:69-117`, plus the raw
accumulation lists the top lists are computed from and the summary
statistics the response reports. -/
structure Signals where
  mean : ℚ
  aboveCount : Nat
  totalPlayed : Nat
  userTags : List String
  userCategories : List String
  tagWeights : List (String × Nat)
  topTags : List String
  topCategories : List String
deriving DecidableEq, Repr, Inhabited

/-- The per-game accumulation loop at `recommender.py:95-110`: walk the
top played games with their enumeration index, skip games whose detail
fetch fails, and for the rest append every genre to the tag list (adding
the positional weight `n - i` into the weight map) and every category to
the category list.  `n` is the length of the full top-played list. -/
def collectSignals (fetch : Nat → Option GameDetails) (n : Nat) :
    Nat → List EngagementRecord →
    List String × List String × List (String × Nat) →
    List String × List String × List (String × Nat)
  | _, [], st => st
  | i, g :: rest, (tags, cats, tw) =>
    match fetch g.appid with
    | none => collectSignals fetch n (i + 1) rest (tags, cats, tw)
    | some d =>
      let weight := n - i
      let tags2 := tags ++ d.genres.getD []
      let tw2 := (d.genres.getD []).foldl (fun m t => incWeight m t weight) tw
      let cats2 := cats ++ d.categories.getD []
      collectSignals fetch n (i + 1) rest (tags2, cats2, tw2)

/-- Error message at `recommender.py:67` (`NoOwnedGames` in the spec's
taxonomy). -/
def msgNoOwnedGames : String := "Could not retrieve games. Make sure your profile is public!"

/-- Error message at `recommender.py:73` (`NoEngagementData` in the
spec's taxonomy). -/
def msgNoEngagementData : String := "No games with playtime found!"

/-- Steps 1-6 of `get_recommendations` (`recommender.py:60-117`): the
Preference Extractor.  Fails with the owned-games error on an empty
history, with the playtime error when no record has positive playtime;
otherwise returns the signal set: mean playtime over played games, the
above-average subset sorted by playtime descending and truncated to 30,
positional weights accumulated per tag, and the top-20/top-15 frequency
lists. -/
def extractSignals (fetch : Nat → Option GameDetails)
    (owned_games : List EngagementRecord) : Except String Signals :=
  if owned_games.isEmpty then .error msgNoOwnedGames
  else
    let played_games := owned_games.filter (fun g => decide (0 < g.playtime_forever))
    if played_games.isEmpty then .error msgNoEngagementData
    else
      let total_playtime : ℚ := ((played_games.map (·.playtime_forever)).sum : Nat)
      let average_playtime : ℚ := total_playtime / (played_games.length : ℚ)
      let above_average_games :=
        played_games.filter (fun g => decide (average_playtime < (g.playtime_forever : ℚ)))
      let sorted_above :=
        above_average_games.mergeSort (fun a b => decide (b.playtime_forever ≤ a.playtime_forever))
      let top_played := sorted_above.take 30
      let acc := collectSignals fetch top_played.length 0 top_played ([], [], [])
      .ok {
        mean := average_playtime
        aboveCount := above_average_games.length
        totalPlayed := played_games.length
        userTags := acc.1
        userCategories := acc.2.1
        tagWeights := acc.2.2
        topTags := mostCommon 20 acc.1
        topCategories := mostCommon 15 acc.2.1 }

/-- Step 9 of `get_recommendations` (`recommender.py:137-149`): stable
sort of the two buckets per the requested mode (Python `list.sort` with
`reverse=True` is also stable).  The on-sale bucket sorts by
`current_price`, the regular bucket by `price`; the descending rating
mode sorts by the `steam_rating` field. -/
def sortRecs (sort_by : String) (on_sale_games regular_games : List GameRec) :
    List GameRec × List GameRec :=
  if sort_by = "price" then
    (on_sale_games.mergeSort (fun a b => decide (a.current_price ≤ b.current_price)),
     regular_games.mergeSort (fun a b => decide (a.price ≤ b.price)))
  else if sort_by = "match" then
    (on_sale_games.mergeSort (fun a b => decide (b.match_score ≤ a.match_score)),
     regular_games.mergeSort (fun a b => decide (b.match_score ≤ a.match_score)))
  else if sort_by = "release_date" then
    (on_sale_games.mergeSort (fun a b => decide (b.release_timestamp ≤ a.release_timestamp)),
     regular_games.mergeSort (fun a b => decide (b.release_timestamp ≤ a.release_timestamp)))
  else
    (on_sale_games.mergeSort (fun a b => decide (b.steam_rating ≤ a.steam_rating)),
     regular_games.mergeSort (fun a b => decide (b.steam_rating ≤ a.steam_rating)))

/-- The response of `get_recommendations`: either a single error message
(the dict `{'error': msg}` — no other field is present on failure) or the
success dict of `recommender.py:151-158`.  `average_playtime` carries the
exact mean in hours; the Python display rounding `round(·, 1)` of this
presentation field is not modelled. -/
inductive RecResponse where
  | error (msg : String)
  | success (average_playtime : ℚ) (above_average_count : Nat) (total_games : Nat)
      (top_tags : List String) (regular_recommendations : List GameRec)
      (sale_recommendations : List GameRec)
deriving DecidableEq, Repr, Inhabited

/-- The per-candidate unit of work submitted to the executor at
`recommender.py:387-399`: one scorer invocation against the extracted
signal set, with the owned-id set taken from the full owned-games list. -/
def candidateProc (fetch : Nat → Option GameDetails) (parseDate : String → Option ℚ)
    (now : ℚ) (owned_games : List EngagementRecord) (s : Signals) (min_rating : Int)
    (price_range : Option (ℚ × ℚ)) (show_recent_only : Bool) : Nat → Option GameRec :=
  fun app_id => fetchAndProcessGame fetch parseDate now app_id (owned_games.map (·.appid))
    s.topTags s.topCategories s.tagWeights min_rating price_range show_recent_only

/-- Step 8, `recommender.py:134`: on-sale survivors with score ≥ 2. -/
def saleBucket (all_recommendations : List GameRec) : List GameRec :=
  all_recommendations.filter (fun g => g.on_sale && decide (2 ≤ g.match_score))

/-- Step 8, `recommender.py:135`: full-price survivors with score ≥ 4. -/
def regBucket (all_recommendations : List GameRec) : List GameRec :=
  all_recommendations.filter (fun g => !g.on_sale && decide (4 ≤ g.match_score))

/-- Source `recommender.py:60-158` `get_recommendations`: extract the signal
set, evaluate the candidate set (in `arrival` order), split survivors
into the on-sale (score ≥ 2) and regular (score ≥ 4) buckets, sort, and
truncate each bucket to 30. -/
def getRecommendations (fetch : Nat → Option GameDetails) (parseDate : String → Option ℚ)
    (now : ℚ) (arrival : List Nat) (owned_games : List EngagementRecord)
    (min_rating : Int) (sort_by : String) (price_range : Option (ℚ × ℚ))
    (show_recent_only : Bool) : RecResponse :=
  match extractSignals fetch owned_games with
  | .error msg => .error msg
  | .ok s =>
    let all_recommendations := findMatchingGames
      (candidateProc fetch parseDate now owned_games s min_rating price_range show_recent_only)
      arrival
    let sorted := sortRecs sort_by (saleBucket all_recommendations)
      (regBucket all_recommendations)
    .success (s.mean / 60) s.aboveCount s.totalPlayed (s.topTags.take 10)
      (sorted.2.take 30) (sorted.1.take 30)

/-- A cache entry (`recommender.py:52-55`): the detail payload plus the
Unix time it was fetched at. -/
structure CacheEntry where
  data : GameDetails
  cached_at : ℚ
deriving DecidableEq, Repr, Inhabited

/-- The cache: a dict keyed by `str(app_id)` (app ids map to their string
forms bijectively, so keys are kept as `Nat`), insertion ordered. -/
abbrev GameCache := List (Nat × CacheEntry)

/-- Source `recommender.py:16-29` `_load_cache`: the load-time sweep keeps an
entry iff it is strictly younger than 24 hours (86400 seconds). -/
def loadCache (now : ℚ) (stored : GameCache) : GameCache :=
  stored.filter (fun kv => decide (now - kv.2.cached_at < 86400))

/-- Source `recommender.py:39-58` `_get_game_details_cached`: return the cached
payload when the key is present (no freshness check); otherwise fetch,
and only on a successful fetch insert the entry (timestamped `now`) and
flush the cache to disk.  Result: (returned details, cache afterwards,
whether `_save_cache` ran). -/
def getGameDetailsCached (fetch : Nat → Option GameDetails) (now : ℚ)
    (cache : GameCache) (app_id : Nat) : Option GameDetails × GameCache × Bool :=
  match cache.lookup app_id with
  | some entry => (some entry.data, cache, false)
  | none =>
    match fetch app_id with
    | some details => (some details, cache ++ [(app_id, ⟨details, now⟩)], true)
    | none => (none, cache, false)

/-! ## Concrete fixtures used by counterexamples and witnesses -/

/-- A minimal appdetails payload: a base game with the given name and
genre list and no other data. -/
def sampleDetails (nm : String) (gs : List String) : GameDetails :=
  { name := nm, gtype := "game", genres := some gs, categories := none,
    recTotal := none, metacritic := 0, price_overview := none,
    release_date := "TBA", header_image := "", short_description := "",
    developers := ["Unknown"], publishers := ["Unknown"] }

/-- Engagement history for the C1 scenario: five clearly-favoured games
(appids 1-5) and five barely-touched ones, so the above-average set is
exactly appids 1-5 in descending playtime order with positional weights
5,4,3,2,1. -/
def c1Owned : List EngagementRecord :=
  [⟨1, 100⟩, ⟨2, 90⟩, ⟨3, 80⟩, ⟨4, 70⟩, ⟨5, 60⟩,
   ⟨6, 1⟩, ⟨7, 1⟩, ⟨8, 1⟩, ⟨9, 1⟩, ⟨10, 1⟩]

/-- Details for the C1 scenario: the two most-played games carry tag
`"A"` (accumulated weight 9, frequency 2), the next three carry tag `"B"`
(accumulated weight 6, frequency 3). -/
def c1Fetch : Nat → Option GameDetails := fun id =>
  if id = 1 ∨ id = 2 then some (sampleDetails "Owned Game" ["A"])
  else if id = 3 ∨ id = 4 ∨ id = 5 then some (sampleDetails "Owned Game" ["B"])
  else none

/-- The ranking claim C1 asserts for the signal tag list: the keys of the
accumulated `SignalWeight` map sorted by weight descending, ties kept in
accumulation (insertion) order, truncated to 20. -/
def topTagsByWeightSpec (tw : List (String × Nat)) : List String :=
  ((tw.mergeSort (fun a b => decide (b.2 ≤ a.2))).map Prod.fst).take 20

/-- The signal set the extractor computes on the C1 scenario. -/
def c1Sig : Signals := (extractSignals c1Fetch c1Owned).toOption.getD default

/-- A date parser that always fails (every fixture uses `"TBA"` dates,
which are never parsed anyway). -/
def noParse : String → Option ℚ := fun _ => none

/-- Scorer fixture for C2: candidate 42 carries the single tag `"A"`,
whose accumulated signal weight is 45, so the weighted overlap sums to
exactly 45. -/
def c2Fetch : Nat → Option GameDetails := fun id =>
  if id = 42 then some (sampleDetails "Some Game" ["A"]) else none

/-- Pipeline fixture shared by C6/C8/C9: six favoured games (appids 1-6,
all carrying tags `"A"` and `"B"`, accumulated weight 21 each) and four
barely-touched ones. -/
def c9Owned : List EngagementRecord :=
  [⟨1, 100⟩, ⟨2, 90⟩, ⟨3, 80⟩, ⟨4, 70⟩, ⟨5, 60⟩, ⟨6, 50⟩,
   ⟨7, 1⟩, ⟨8, 1⟩, ⟨9, 1⟩, ⟨10, 1⟩]

/-- Details for the C6/C8/C9 pipeline fixture: candidates 100 and 101 are
full-price games at $20 and $10 matching both signal tags (weighted score
42, match score 4), candidate 102 is the same game on 50% discount
(match score 4, on sale). -/
def c9Fetch : Nat → Option GameDetails := fun id =>
  if id ≤ 6 ∧ 1 ≤ id then some (sampleDetails "Owned Game" ["A", "B"])
  else if id = 100 then some { sampleDetails "Alpha Quest" ["A", "B"] with
    price_overview := some ⟨2000, 2000, 0⟩ }
  else if id = 101 then some { sampleDetails "Beta Quest" ["A", "B"] with
    price_overview := some ⟨1000, 1000, 0⟩ }
  else if id = 102 then some { sampleDetails "Gamma Quest" ["A", "B"] with
    price_overview := some ⟨1500, 750, 50⟩ }
  else none

/-- Fan-out fixture for C4: two distinct candidates whose base names
differ by an interior `"the "`. -/
def c4Fetch : Nat → Option GameDetails := fun id =>
  if id = 1 then some (sampleDetails "Enter the Gungeon" ["A"])
  else if id = 2 then some (sampleDetails "Enter Gungeon" ["A"])
  else none

/-- The per-candidate evaluator of the C4 scenario (signal weight 50 on
tag `"A"`, so both candidates score 5 and pass every filter). -/
def c4Proc : Nat → Option GameRec := fun app_id =>
  fetchAndProcessGame c4Fetch noParse 0 app_id [] ["A"] [] [("A", 50)] 0 none false

/-- Scorer fixture for C5: a candidate whose `recommendations.total` is
present and equal to 0, with no metacritic score. -/
def c5Fetch : Nat → Option GameDetails := fun id =>
  if id = 9 then some { sampleDetails "Quiet Game" ["A"] with recTotal := some 0 }
  else none

/-- A stored detail payload for the cache scenarios. -/
def c3Detail : GameDetails := sampleDetails "Cached Game" ["A"]

/-- A cache holding one entry for app id 7, fetched at time 0. -/
def c3Cache : GameCache := [(7, ⟨c3Detail, 0⟩)]

deriving instance DecidableEq for Except

/-- The record the scorer produces on the C2 fixture (weighted overlap
exactly 45). -/
def c2Rec : GameRec :=
  (fetchAndProcessGame c2Fetch noParse 0 42 [] ["A"] [] [("A", 45)] 0 none false).getD default

/-- The record the scorer produces on the C5 fixture
(`recommendations.total = 0`). -/
def c5Rec : GameRec :=
  (fetchAndProcessGame c5Fetch noParse 0 9 [] ["A"] [] [("A", 50)] 0 none false).getD default

/-- The full pipeline run on the C6/C9 fixture with `sort_by = "price"`. -/
def c9Response : RecResponse :=
  getRecommendations c9Fetch noParse 0 [100, 101, 102] c9Owned 0 "price" none false

/-- The regular bucket of `c9Response`. -/
def c9Reg : List GameRec :=
  match c9Response with
  | .success _ _ _ _ reg _ => reg
  | .error _ => []

/-- The sale bucket of `c9Response`. -/
def c9Sal : List GameRec :=
  match c9Response with
  | .success _ _ _ _ _ sal => sal
  | .error _ => []

/-! ## Spec-side comparison definitions -/

/-- Keep the first arrival for each `key`, dropping every later element
whose key was already seen (the dedup policy §4.4 describes, stated
independently of the collection loop). -/
def keepFirstAux (key : GameRec → String) (seen : List String) : List GameRec → List GameRec
  | [] => []
  | r :: rest =>
    if key r ∈ seen then keepFirstAux key seen rest
    else r :: keepFirstAux key (key r :: seen) rest

/-- The `keepFirstAux` loop starting from no seen keys. -/
def keepFirstByKey (key : GameRec → String) (l : List GameRec) : List GameRec :=
  keepFirstAux key [] l

/-- The frequency ranking with first-occurrence tie-break: `a` ranks
strictly before `b` when `a` occurs more often in `pool`, or equally
often with an earlier first occurrence (`[a, b] <+ firstOcc pool` states
that `a`'s first occurrence in `pool` precedes `b`'s).  This is an
antisymmetric relation (`rankBefore_antisymm`), total on distinct
elements of `pool`. -/
def RankBefore (pool : List String) (a b : String) : Prop :=
  pool.count b < pool.count a ∨
    (pool.count b = pool.count a ∧ [a, b] <+ firstOcc pool)

/-- What it means for `top` to be exactly the top-`n` elements of the
multiset `pool` by multiplicity, ties broken by first occurrence.
`top` must have exactly `min n d` entries, where `d` is the number of
distinct elements of `pool`; it lists distinct elements of `pool` in
strictly decreasing rank order (`RankBefore`), and every element of
`pool` that was left out ranks strictly below every element of `top`.
Together these determine `top` uniquely (`topByCountSpec_unique`). -/
def TopByCountSpec (n : Nat) (pool top : List String) : Prop :=
  top.length = min n (firstOcc pool).length ∧ top.Nodup ∧ (∀ t ∈ top, t ∈ pool) ∧
  top.Pairwise (RankBefore pool) ∧
  (∀ t ∈ pool, t ∉ top → ∀ a ∈ top, RankBefore pool a t)

/-! ## Helper lemmas -/

theorem mem_firstOccAux {x : String} :
    ∀ (l seen : List String), x ∈ firstOccAux seen l ↔ x ∈ l ∧ x ∉ seen := by
  intro l
  induction l with
  | nil => intro seen; simp [firstOccAux]
  | cons y rest ih =>
    intro seen
    by_cases hy : y ∈ seen
    · rw [firstOccAux, if_pos hy, ih]
      constructor
      · rintro ⟨h1, h2⟩; exact ⟨List.mem_cons_of_mem _ h1, h2⟩
      · rintro ⟨h1, h2⟩
        rcases List.mem_cons.mp h1 with rfl | h1
        · exact absurd hy h2
        · exact ⟨h1, h2⟩
    · rw [firstOccAux, if_neg hy]
      constructor
      · intro h
        rcases List.mem_cons.mp h with rfl | h
        · exact ⟨List.mem_cons_self _ _, hy⟩
        · rw [ih] at h
          refine ⟨List.mem_cons_of_mem _ h.1, fun hx => h.2 (List.mem_cons_of_mem _ hx)⟩
      · rintro ⟨h1, h2⟩
        rcases List.mem_cons.mp h1 with rfl | h1
        · exact List.mem_cons_self _ _
        · by_cases hxy : x = y
          · subst hxy; exact List.mem_cons_self _ _
          · exact List.mem_cons_of_mem _ (ih _ |>.mpr
              ⟨h1, fun hx => (List.mem_cons.mp hx).elim hxy h2⟩)

theorem mem_firstOcc {x : String} {l : List String} : x ∈ firstOcc l ↔ x ∈ l := by
  rw [firstOcc, mem_firstOccAux]; simp

theorem nodup_firstOccAux : ∀ (l seen : List String), (firstOccAux seen l).Nodup := by
  intro l
  induction l with
  | nil => intro seen; simp [firstOccAux]
  | cons y rest ih =>
    intro seen
    by_cases hy : y ∈ seen
    · rw [firstOccAux, if_pos hy]; exact ih seen
    · rw [firstOccAux, if_neg hy]
      refine List.nodup_cons.mpr ⟨fun hmem => ?_, ih _⟩
      exact (mem_firstOccAux rest _ |>.mp hmem).2 (List.mem_cons_self _ _)

theorem nodup_firstOcc (l : List String) : (firstOcc l).Nodup := nodup_firstOccAux l []

theorem mem_mem_sublist_or {a b : String} :
    ∀ {l : List String}, a ∈ l → b ∈ l → a ≠ b → [a, b] <+ l ∨ [b, a] <+ l := by
  intro l
  induction l with
  | nil => intro ha _ _; exact absurd ha (List.not_mem_nil a)
  | cons c t ih =>
    intro ha hb hne
    rcases List.mem_cons.mp ha with rfl | ha'
    · have hbt : b ∈ t := by
        rcases List.mem_cons.mp hb with rfl | hb'
        · exact absurd rfl hne
        · exact hb'
      exact Or.inl (List.Sublist.cons₂ a (List.singleton_sublist.mpr hbt))
    · rcases List.mem_cons.mp hb with rfl | hb'
      · exact Or.inr (List.Sublist.cons₂ b (List.singleton_sublist.mpr ha'))
      · rcases ih ha' hb' hne with h | h
        · exact Or.inl (List.Sublist.cons c h)
        · exact Or.inr (List.Sublist.cons c h)

theorem sublist_pair_eq {a b : String} :
    ∀ {l : List String}, l.Nodup → [a, b] <+ l → [b, a] <+ l → a = b := by
  intro l
  induction l with
  | nil => intro _ h _; exact absurd (h.subset (by simp)) (List.not_mem_nil a)
  | cons c t ih =>
    intro hnd h1 h2
    rw [List.nodup_cons] at hnd
    obtain ⟨hc, ht⟩ := hnd
    cases h1 with
    | cons _ h1' =>
      cases h2 with
      | cons _ h2' => exact ih ht h1' h2'
      | cons₂ _ h2' => exact absurd (h1'.subset (by simp)) hc
    | cons₂ _ h1' =>
      cases h2 with
      | cons _ h2' => exact absurd (h2'.subset (by simp)) hc
      | cons₂ _ h2' => rfl

theorem rankBefore_antisymm (pool : List String) :
    ∀ a b : String, RankBefore pool a b → RankBefore pool b a → a = b := by
  intro a b hab hba
  rcases hab with h | ⟨he, hs⟩
  · rcases hba with h' | ⟨he', _⟩
    · omega
    · omega
  · rcases hba with h' | ⟨_, hs'⟩
    · omega
    · exact sublist_pair_eq (nodup_firstOcc pool) hs hs'

/-- Any two lists satisfying `TopByCountSpec n pool` are equal: the
specification pins the top list down uniquely. -/
theorem topByCountSpec_unique (n : Nat) (pool t1 t2 : List String)
    (h1 : TopByCountSpec n pool t1) (h2 : TopByCountSpec n pool t2) : t1 = t2 := by
  obtain ⟨hl1, hnd1, hm1, hp1, hx1⟩ := h1
  obtain ⟨hl2, hnd2, hm2, hp2, hx2⟩ := h2
  have hlen : t1.length = t2.length := by rw [hl1, hl2]
  have key : ∀ (u v : List String), u.Nodup → v.Nodup → u.length = v.length →
      (∀ t ∈ u, t ∈ pool) → (∀ t ∈ v, t ∈ pool) →
      (∀ t ∈ pool, t ∉ u → ∀ a ∈ u, RankBefore pool a t) →
      (∀ t ∈ pool, t ∉ v → ∀ a ∈ v, RankBefore pool a t) →
      u ⊆ v := by
    intro u v hndu hndv hluv hmu hmv hxu hxv x hxin
    by_contra hxout
    have hcard : ∃ y ∈ v, y ∉ u := by
      by_contra hno
      push_neg at hno
      have hins : insert x v.toFinset ⊆ u.toFinset := by
        intro a ha
        rcases Finset.mem_insert.mp ha with rfl | ha'
        · exact List.mem_toFinset.mpr hxin
        · exact List.mem_toFinset.mpr (hno a (List.mem_toFinset.mp ha'))
      have hxv' : x ∉ v.toFinset := fun hx => hxout (List.mem_toFinset.mp hx)
      have hle := Finset.card_le_card hins
      rw [Finset.card_insert_of_not_mem hxv', List.toFinset_card_of_nodup hndu,
        List.toFinset_card_of_nodup hndv] at hle
      omega
    obtain ⟨y, hyv, hyu⟩ := hcard
    have hxy : RankBefore pool y x := hxv x (hmu x hxin) hxout y hyv
    have hyx : RankBefore pool x y := hxu y (hmv y hyv) hyu x hxin
    exact hyu ((rankBefore_antisymm pool x y hyx hxy) ▸ hxin)
  have h12 : t1 ⊆ t2 := key t1 t2 hnd1 hnd2 hlen hm1 hm2 hx1 hx2
  have h21 : t2 ⊆ t1 := key t2 t1 hnd2 hnd1 hlen.symm hm2 hm1 hx2 hx1
  have hperm : t1.Perm t2 := by
    rw [List.perm_ext_iff_of_nodup hnd1 hnd2]
    intro a
    exact ⟨fun h => h12 h, fun h => h21 h⟩
  haveI : IsAntisymm String (RankBefore pool) := ⟨rankBefore_antisymm pool⟩
  exact List.eq_of_perm_of_sorted hperm hp1 hp2

/-- The stable merge sort of the distinct tags, ordered descending by
multiplicity, is strictly ranked: later entries have strictly fewer
occurrences, or equally many and a strictly later first occurrence (this
is the stability of Python's sort made explicit). -/
theorem pairwise_rank_mergeSort (l : List String) :
    ((firstOcc l).mergeSort (fun a b => decide (l.count b ≤ l.count a))).Pairwise
      (RankBefore l) := by
  have htrans : ∀ a b c : String,
      (decide (l.count b ≤ l.count a)) → (decide (l.count c ≤ l.count b)) →
      (decide (l.count c ≤ l.count a)) := by
    intro a b c hab hbc
    simp only [decide_eq_true_eq] at *
    exact le_trans hbc hab
  have htotal : ∀ a b : String,
      (decide (l.count b ≤ l.count a) || decide (l.count a ≤ l.count b)) = true := by
    intro a b
    simp only [Bool.or_eq_true, decide_eq_true_eq]
    exact le_total _ _
  have hsorted := List.sorted_mergeSort htrans htotal (firstOcc l)
  have hnodup : ((firstOcc l).mergeSort
      (fun a b => decide (l.count b ≤ l.count a))).Nodup :=
    (List.mergeSort_perm (firstOcc l) _).symm.nodup (nodup_firstOcc l)
  rw [List.pairwise_iff_forall_sublist]
  intro a b hab
  have hle : l.count b ≤ l.count a := by
    have := List.pairwise_iff_forall_sublist.mp hsorted hab
    simpa using this
  rcases Nat.lt_or_ge (l.count b) (l.count a) with hlt | hge
  · exact Or.inl hlt
  · have heq : l.count b = l.count a := le_antisymm hle hge
    refine Or.inr ⟨heq, ?_⟩
    have hne : a ≠ b := List.pairwise_iff_forall_sublist.mp hnodup hab
    have ha : a ∈ firstOcc l := List.mem_mergeSort.mp (hab.subset (by simp))
    have hb : b ∈ firstOcc l := List.mem_mergeSort.mp (hab.subset (by simp))
    rcases mem_mem_sublist_or ha hb hne with h | h
    · exact h
    · exfalso
      have hba := List.pair_sublist_mergeSort htrans htotal (by simpa using hge) h
      exact hne (sublist_pair_eq hnodup hab hba)

theorem mostCommon_topByCount (n : Nat) (l : List String) :
    TopByCountSpec n l (mostCommon n l) := by
  have hpair := pairwise_rank_mergeSort l
  have hnodup : ((firstOcc l).mergeSort
      (fun a b => decide (l.count b ≤ l.count a))).Nodup :=
    (List.mergeSort_perm (firstOcc l) _).symm.nodup (nodup_firstOcc l)
  refine ⟨?_, ?_, ?_, ?_, ?_⟩
  · simp [mostCommon, List.length_take]
  · exact List.Nodup.sublist (List.take_sublist _ _) hnodup
  · intro t ht
    have h1 := List.take_subset _ _ ht
    exact mem_firstOcc.mp (List.mem_mergeSort.mp h1)
  · exact List.Pairwise.sublist (List.take_sublist _ _) hpair
  · intro t htl htn a ha
    have htOut : t ∈ (firstOcc l).mergeSort (fun a b => decide (l.count b ≤ l.count a)) :=
      List.mem_mergeSort.mpr (mem_firstOcc.mpr htl)
    have hsplit := List.take_append_drop n ((firstOcc l).mergeSort
      (fun a b => decide (l.count b ≤ l.count a)))
    have htDrop : t ∈ ((firstOcc l).mergeSort
        (fun a b => decide (l.count b ≤ l.count a))).drop n := by
      rcases List.mem_append.mp (by rw [hsplit]; exact htOut) with h | h
      · exact absurd h htn
      · exact h
    have hsub : [a, t] <+ (firstOcc l).mergeSort
        (fun a b => decide (l.count b ≤ l.count a)) := by
      rw [← hsplit]
      exact List.Sublist.append (List.singleton_sublist.mpr ha)
        (List.singleton_sublist.mpr htDrop)
    exact List.pairwise_iff_forall_sublist.mp hpair hsub

theorem ratingFilterExcludes_zero (mr : Int) (s : Bool) :
    ratingFilterExcludes 0 mr s = false := by
  simp [ratingFilterExcludes]

/-- Inversion of a successful scorer run: the surviving record's score
and rating fields are the ones computed from the fetched details, and the
score guard was passed. -/
theorem fetchAndProcessGame_fields (f : Nat → Option GameDetails)
    (pd : String → Option ℚ) (now : ℚ) (id : Nat) (owned : List Nat)
    (tt tc : List String) (tw : List (String × Nat)) (mr : Int)
    (pr : Option (ℚ × ℚ)) (ro : Bool) (d : GameDetails) (r : GameRec)
    (hd : f id = some d)
    (h : fetchAndProcessGame f pd now id owned tt tc tw mr pr ro = some r) :
    r.match_score = matchScoreOf d tt tc tw ∧ matchScoreOf d tt tc tw ≠ 0 ∧
    r.rating = ratingOf d ∧ r.steam_rating = steamRatingOf d.recTotal := by
  simp only [fetchAndProcessGame, hd] at h
  repeat' split at h
  all_goals (try exact Option.noConfusion h)
  all_goals injection h with h
  all_goals subst h
  all_goals exact ⟨rfl, by assumption, rfl, rfl⟩

/-- Every result collected by the dedup loop comes from `proc` on some
arrived id. -/
theorem mem_collectDedup (proc : Nat → Option GameRec) {g : GameRec} :
    ∀ (l : List Nat) (seen : List String), g ∈ collectDedup proc seen l →
      ∃ id, id ∈ l ∧ proc id = some g := by
  intro l
  induction l with
  | nil => intro seen h; simp [collectDedup] at h
  | cons id rest ih =>
    intro seen h
    rcases hp : proc id with _ | r
    · simp only [collectDedup, hp] at h
      obtain ⟨i, hi, hpi⟩ := ih seen h
      exact ⟨i, List.mem_cons_of_mem _ hi, hpi⟩
    · simp only [collectDedup, hp] at h
      split at h
      · obtain ⟨i, hi, hpi⟩ := ih seen h
        exact ⟨i, List.mem_cons_of_mem _ hi, hpi⟩
      · rcases List.mem_cons.mp h with rfl | h
        · exact ⟨id, List.mem_cons_self _ _, hp⟩
        · obtain ⟨i, hi, hpi⟩ := ih _ h
          exact ⟨i, List.mem_cons_of_mem _ hi, hpi⟩

/-- The collection loop of the Fan-out Evaluator is exactly
keep-the-first-arrival-per-normalized-base-name over the sequence of
successful scorer results. -/
theorem collectDedup_eq_keepFirstAux (proc : Nat → Option GameRec) :
    ∀ (l : List Nat) (seen₁ seen₂ : List String),
      (∀ k, k ∈ seen₂ ↔ k ∈ seen₁.map normalizeName) →
      collectDedup proc seen₁ l
        = keepFirstAux (fun r => normalizeName r.base_name) seen₂ (l.filterMap proc) := by
  intro l
  induction l with
  | nil => intro seen₁ seen₂ _; simp [collectDedup, keepFirstAux]
  | cons id rest ih =>
    intro seen₁ seen₂ hseen
    rcases hp : proc id with _ | r
    · simp only [collectDedup, hp, List.filterMap_cons]
      exact ih seen₁ seen₂ hseen
    · simp only [collectDedup, hp, List.filterMap_cons]
      rw [keepFirstAux]
      have hcond : (seen₁.any
          (fun existing => normalizeName existing == normalizeName r.base_name)) = true
          ↔ normalizeName r.base_name ∈ seen₂ := by
        simp [hseen]
      by_cases hdup : normalizeName r.base_name ∈ seen₂
      · rw [if_pos (hcond.mpr hdup), if_pos hdup]
        exact ih seen₁ seen₂ hseen
      · rw [if_neg (fun hc => hdup (hcond.mp hc)), if_neg hdup]
        congr 1
        refine ih (seen₁ ++ [r.base_name]) (normalizeName r.base_name :: seen₂) ?_
        intro k
        simp only [List.mem_cons, List.map_append, List.mem_append, hseen, List.map_cons,
          List.map_nil, List.mem_singleton]
        tauto

/-- Membership in the sorted buckets is membership in the buckets. -/
theorem mem_sortRecs_fst {g : GameRec} (sb : String) (a b : List GameRec) :
    g ∈ (sortRecs sb a b).1 ↔ g ∈ a := by
  rw [sortRecs]
  split_ifs <;> simp

theorem mem_sortRecs_snd {g : GameRec} (sb : String) (a b : List GameRec) :
    g ∈ (sortRecs sb a b).2 ↔ g ∈ b := by
  rw [sortRecs]
  split_ifs <;> simp

/-- Inversion of the Preference Extractor's success case. -/
theorem extractSignals_ok (fetch : Nat → Option GameDetails)
    (owned_games : List EngagementRecord) (s : Signals)
    (h : extractSignals fetch owned_games = .ok s) :
    s.topTags = mostCommon 20 s.userTags ∧
    s.topCategories = mostCommon 15 s.userCategories := by
  simp only [extractSignals] at h
  split at h
  · exact Except.noConfusion h
  · split at h
    · exact Except.noConfusion h
    · injection h with h
      subst h
      exact ⟨rfl, rfl⟩

/-- The extractor fails exactly on the two no-data conditions, with the
corresponding message. -/
theorem extractSignals_error (fetch : Nat → Option GameDetails)
    (owned_games : List EngagementRecord) (m : String) :
    extractSignals fetch owned_games = .error m ↔
      (owned_games = [] ∧ m = msgNoOwnedGames) ∨
      (owned_games ≠ [] ∧ (∀ g ∈ owned_games, g.playtime_forever = 0) ∧
        m = msgNoEngagementData) := by
  simp only [extractSignals]
  split
  · rename_i hempty
    rw [List.isEmpty_iff] at hempty
    subst hempty
    constructor
    · intro h
      injection h with h
      exact Or.inl ⟨rfl, h.symm⟩
    · rintro (⟨_, rfl⟩ | ⟨hne, _, _⟩)
      · rfl
      · exact absurd rfl hne
  · rename_i hnonempty
    rw [List.isEmpty_iff] at hnonempty
    split
    · rename_i hplayed
      rw [List.isEmpty_iff, List.filter_eq_nil_iff] at hplayed
      constructor
      · intro h
        injection h with h
        refine Or.inr ⟨hnonempty, fun g hg => ?_, h.symm⟩
        have := hplayed g hg
        simpa using this
      · rintro (⟨rfl, _⟩ | ⟨_, _, rfl⟩)
        · exact absurd rfl hnonempty
        · rfl
    · rename_i hplayed
      rw [List.isEmpty_iff, List.filter_eq_nil_iff] at hplayed
      constructor
      · intro h
        exact Except.noConfusion h
      · rintro (⟨rfl, _⟩ | ⟨_, hall, rfl⟩)
        · exact absurd rfl hnonempty
        · refine absurd (fun g hg => ?_) hplayed
          simp [hall g hg]

/-- Inversion of a successful pipeline run: the output lists are the
truncated, sorted buckets over the collected fan-out survivors. -/
theorem getRecommendations_success (fetch : Nat → Option GameDetails)
    (parseDate : String → Option ℚ) (now : ℚ) (arrival : List Nat)
    (owned_games : List EngagementRecord) (mr : Int) (sb : String)
    (pr : Option (ℚ × ℚ)) (ro : Bool) (ap : ℚ) (ac tg : Nat)
    (tt : List String) (reg sal : List GameRec)
    (h : getRecommendations fetch parseDate now arrival owned_games mr sb pr ro
        = .success ap ac tg tt reg sal) :
    ∃ s, extractSignals fetch owned_games = .ok s ∧
      reg = ((sortRecs sb
        (saleBucket (findMatchingGames
          (candidateProc fetch parseDate now owned_games s mr pr ro) arrival))
        (regBucket (findMatchingGames
          (candidateProc fetch parseDate now owned_games s mr pr ro) arrival))).2).take 30 ∧
      sal = ((sortRecs sb
        (saleBucket (findMatchingGames
          (candidateProc fetch parseDate now owned_games s mr pr ro) arrival))
        (regBucket (findMatchingGames
          (candidateProc fetch parseDate now owned_games s mr pr ro) arrival))).1).take 30 := by
  rw [getRecommendations] at h
  split at h
  · exact RecResponse.noConfusion h
  · rename_i s hs
    injection h with h1 h2 h3 h4 h5 h6
    exact ⟨s, hs, h5.symm, h6.symm⟩

/-! ## Claim C1 -/

/-- C1, counterexample: on the `c1` engagement history the accumulated
weights are A ↦ 9, B ↦ 6, so ranking by accumulated `SignalWeight`
(descending, ties by accumulation order) gives `["A", "B"]`, but the
signal tag list the extractor passes to scoring is `["B", "A"]` — the
code ranks by occurrence frequency (`Counter(user_tags)`), not by
accumulated weight. -/
theorem C1_counterexample :
    extractSignals c1Fetch c1Owned = .ok c1Sig ∧
    c1Sig.tagWeights = [("A", 9), ("B", 6)] ∧
    topTagsByWeightSpec c1Sig.tagWeights = ["A", "B"] ∧
    c1Sig.topTags = ["B", "A"] ∧
    c1Sig.topTags ≠ topTagsByWeightSpec c1Sig.tagWeights := by
  with_unfolding_all decide

/-- C1, amended: the signal tag list passed to scoring is exactly the
top 20 tags of the analysed games' tag occurrences ranked descending by
occurrence frequency with ties broken by first-occurrence order (not by
accumulated weight): it satisfies `TopByCountSpec 20` — full length
`min 20 #distinct`, strictly rank-sorted, and dominating everything left
out — and is the unique such list; the category list is likewise the
unique top-15-by-frequency list. -/
theorem C1_amended (fetch : Nat → Option GameDetails)
    (owned : List EngagementRecord) (s : Signals)
    (h : extractSignals fetch owned = .ok s) :
    (TopByCountSpec 20 s.userTags s.topTags ∧
      ∀ other, TopByCountSpec 20 s.userTags other → other = s.topTags) ∧
    (TopByCountSpec 15 s.userCategories s.topCategories ∧
      ∀ other, TopByCountSpec 15 s.userCategories other → other = s.topCategories) := by
  obtain ⟨h1, h2⟩ := extractSignals_ok fetch owned s h
  rw [h1, h2]
  exact ⟨⟨mostCommon_topByCount _ _,
      fun other ho => topByCountSpec_unique _ _ _ _ ho (mostCommon_topByCount _ _)⟩,
    ⟨mostCommon_topByCount _ _,
      fun other ho => topByCountSpec_unique _ _ _ _ ho (mostCommon_topByCount _ _)⟩⟩

/-- C1, witness: the amended theorem applied to the concrete `c1`
scenario. -/
theorem C1_amended_witness :
    extractSignals c1Fetch c1Owned = .ok c1Sig ∧
    TopByCountSpec 20 c1Sig.userTags c1Sig.topTags ∧
    TopByCountSpec 15 c1Sig.userCategories c1Sig.topCategories :=
  ⟨by with_unfolding_all decide,
   (C1_amended c1Fetch c1Owned c1Sig (by with_unfolding_all decide)).1.1,
   (C1_amended c1Fetch c1Owned c1Sig (by with_unfolding_all decide)).2.1⟩

/-! ## Claim C2 -/

/-- C2, counterexample: a candidate whose weighted overlap sums to
exactly 45 gets normalized score `round(4.5) = 4` (Python rounds halves
to even), not 5 as the claim computes. -/
theorem C2_counterexample :
    (fetchAndProcessGame c2Fetch noParse 0 42 [] ["A"] [] [("A", 45)] 0 none false).map
      GameRec.match_score = some 4 ∧
    (fetchAndProcessGame c2Fetch noParse 0 42 [] ["A"] [] [("A", 45)] 0 none false).map
      GameRec.match_score ≠ some 5 := by
  with_unfolding_all decide

/-- C2, amended: the normalized score is
`min(10, round((Σ tag_weights[tag] (default 1) + #matching categories) / 10))`
where `round` is round-half-to-even, so an overlap of 45 scores 4 (not 5);
a candidate whose formula value is 0 (e.g. weighted overlap 1) is
excluded. -/
theorem C2_amended (f : Nat → Option GameDetails) (pd : String → Option ℚ) (now : ℚ)
    (id : Nat) (owned : List Nat) (tt tc : List String) (tw : List (String × Nat))
    (mr : Int) (pr : Option (ℚ × ℚ)) (ro : Bool) (d : GameDetails)
    (hd : f id = some d) :
    (∀ r, fetchAndProcessGame f pd now id owned tt tc tw mr pr ro = some r →
      r.match_score = matchScoreOf d tt tc tw) ∧
    (matchScoreOf d tt tc tw = 0 →
      fetchAndProcessGame f pd now id owned tt tc tw mr pr ro = none) := by
  constructor
  · intro r h
    exact (fetchAndProcessGame_fields f pd now id owned tt tc tw mr pr ro d r hd h).1
  · intro hz
    simp [fetchAndProcessGame, hd, hz]

/-- C2, witness: the amended theorem applied to the 45-overlap fixture
(score 4) and to a 1-overlap fixture (score 0, excluded). -/
theorem C2_amended_witness :
    c2Rec.match_score = matchScoreOf (sampleDetails "Some Game" ["A"]) ["A"] [] [("A", 45)] ∧
    fetchAndProcessGame c2Fetch noParse 0 42 [] ["A"] [] [] 0 none false = none :=
  ⟨(C2_amended c2Fetch noParse 0 42 [] ["A"] [] [("A", 45)] 0 none false
      (sampleDetails "Some Game" ["A"]) (by with_unfolding_all decide)).1 c2Rec
      (by with_unfolding_all decide),
   (C2_amended c2Fetch noParse 0 42 [] ["A"] [] [] 0 none false
      (sampleDetails "Some Game" ["A"]) (by with_unfolding_all decide)).2
      (by with_unfolding_all decide)⟩

/-! ## Claim C3 -/

theorem lookup_loadCache (now : ℚ) :
    ∀ (stored : GameCache), (stored.map Prod.fst).Nodup → ∀ (id : Nat) (e : CacheEntry),
      ((loadCache now stored).lookup id = some e ↔
        stored.lookup id = some e ∧ now - e.cached_at < 86400) := by
  intro stored
  induction stored with
  | nil => intro _ id e; simp [loadCache]
  | cons kv rest ih =>
    intro hnodup id e
    rw [List.map_cons, List.nodup_cons] at hnodup
    obtain ⟨hk, hnd⟩ := hnodup
    rcases kv with ⟨k, v⟩
    by_cases hid : id == k
    · rw [beq_iff_eq] at hid
      subst hid
      by_cases hp : now - v.cached_at < 86400
      · rw [loadCache, List.filter_cons, if_pos (by simpa using hp)]
        rw [List.lookup_cons_self, List.lookup_cons_self]
        constructor
        · intro h
          injection h with h
          subst h
          exact ⟨rfl, hp⟩
        · exact fun h => h.1
      · rw [loadCache, List.filter_cons, if_neg (by simpa using hp)]
        have hnone : (List.filter
            (fun kv => decide (now - kv.2.cached_at < 86400)) rest).lookup id = none := by
          rw [List.lookup_eq_none_iff]
          intro p hp'
          have : p ∈ rest := List.mem_of_mem_filter hp'
          have : p.1 ∈ rest.map Prod.fst := List.mem_map_of_mem _ this
          rw [bne_iff_ne]
          intro hidp
          exact hk (hidp ▸ this)
        rw [loadCache] at *
        rw [hnone, List.lookup_cons_self]
        constructor
        · intro h
          exact Option.noConfusion h
        · rintro ⟨h1, h2⟩
          injection h1 with h1
          subst h1
          exact absurd h2 hp
    · have hid' : (id == k) = false := by
        simpa using hid
      rw [loadCache, List.filter_cons]
      by_cases hp : now - v.cached_at < 86400
      · rw [if_pos (by simpa using hp), List.lookup_cons, hid']
        rw [List.lookup_cons, hid']
        exact ih hnd id e
      · rw [if_neg (by simpa using hp), List.lookup_cons, hid']
        exact ih hnd id e

/-- C3, counterexample: an entry put at time 0 and looked up at time
200000 (more than 24 hours = 86400 seconds later) in the same process is
returned as-is — the entry is not treated as absent and no re-fetch
happens (the fetch function is never consulted and the cache is not
touched). -/
theorem C3_counterexample :
    getGameDetailsCached (fun _ => none) 200000 c3Cache 7
      = (some c3Detail, c3Cache, false) ∧
    (86400 : ℚ) < 200000 - 0 ∧
    (some c3Detail ≠ (none : Option GameDetails)) := by
  with_unfolding_all decide

/-- C3, amended: a `get` for a cached key returns the identical stored
detail no matter how much time has passed — in-process reads never expire
an entry; the 24-hour window is enforced only by the load-time sweep,
which keeps an entry iff it is strictly younger than 86400 seconds (so a
get issued after a cache reload more than 24 hours past the put finds the
entry absent and re-fetches). -/
theorem C3_amended (f : Nat → Option GameDetails) (now : ℚ) (cache stored : GameCache)
    (id : Nat) (e : CacheEntry) (hnodup : (stored.map Prod.fst).Nodup) :
    (cache.lookup id = some e →
      getGameDetailsCached f now cache id = (some e.data, cache, false)) ∧
    ((loadCache now stored).lookup id = some e ↔
      stored.lookup id = some e ∧ now - e.cached_at < 86400) := by
  constructor
  · intro h
    simp [getGameDetailsCached, h]
  · exact lookup_loadCache now stored hnodup id e

/-- C3, witness: the amended theorem applied to the concrete one-entry
cache — an in-window read, and the load-time sweep at time 200000
dropping the entry put at time 0. -/
theorem C3_amended_witness :
    getGameDetailsCached (fun _ => none) 100 c3Cache 7 = (some c3Detail, c3Cache, false) ∧
    ((loadCache 200000 c3Cache).lookup 7 = some ⟨c3Detail, 0⟩ ↔
      c3Cache.lookup 7 = some ⟨c3Detail, 0⟩ ∧ (200000 : ℚ) - 0 < 86400) :=
  ⟨(C3_amended (fun _ => none) 100 c3Cache c3Cache 7 ⟨c3Detail, 0⟩
      (by with_unfolding_all decide)).1 (by with_unfolding_all decide),
   (C3_amended (fun _ => none) 200000 c3Cache c3Cache 7 ⟨c3Detail, 0⟩
      (by with_unfolding_all decide)).2⟩

/-! ## Claim C4 -/

/-- C4, counterexample: the claim's normalization (strip only a *leading*
`"the "`) maps `"Enter the Gungeon"` and `"Enter Gungeon"` to different
keys, so under the claim both would survive; but the code's normalization
removes every occurrence of `"the "`, collapses the two keys, and the
fan-out keeps only the first arrival. -/
theorem C4_counterexample :
    (findMatchingGames c4Proc [1, 2]).map GameRec.base_name = ["Enter the Gungeon"] ∧
    normalizeNameSpec "Enter the Gungeon" ≠ normalizeNameSpec "Enter Gungeon" ∧
    normalizeName "Enter the Gungeon" = normalizeName "Enter Gungeon" ∧
    normalizeName "Enter the Gungeon" ≠ normalizeNameSpec "Enter the Gungeon" ∧
    (c4Proc 1).map GameRec.base_name = some "Enter the Gungeon" ∧
    (c4Proc 2).map GameRec.base_name = some "Enter Gungeon" := by
  with_unfolding_all decide

/-- C4, amended: the dedup normalization lowercases the key and removes
*every* occurrence of `"the "` (not only a leading one), then strips
colons, hyphens and spaces (`normalizeName`); the fan-out keeps exactly
the first arriving result for each normalized key and discards every
later result with the same normalized key, regardless of its score. -/
theorem C4_amended (proc : Nat → Option GameRec) (arrival : List Nat) :
    findMatchingGames proc arrival
      = keepFirstByKey (fun r => normalizeName r.base_name) (arrival.filterMap proc) :=
  collectDedup_eq_keepFirstAux proc arrival [] [] (by simp)

/-! ## Claim C5 -/

/-- C5, counterexample: a candidate whose `recommendations.total` is
present and equal to 0 (and with no positive metacritic score) is
assigned the synthesized rating 70 by the `else` branch of the volume
thresholds — not rating 0 as the claim states for "0 reviews". -/
theorem C5_counterexample :
    (fetchAndProcessGame c5Fetch noParse 0 9 [] ["A"] [] [("A", 50)] 0 none false).map
      GameRec.rating = some 70 ∧
    (fetchAndProcessGame c5Fetch noParse 0 9 [] ["A"] [] [("A", 50)] 0 none false).map
      GameRec.rating ≠ some 0 ∧
    (c5Fetch 9).map GameDetails.recTotal = some (some 0) := by
  with_unfolding_all decide

/-- C5, amended: the derived rating is the metacritic score when
positive, else the rating synthesized from the review count with
thresholds >100000→90, >50000→85, >10000→80, >1000→75 and else 70 —
the `else` branch applies to every present count ≤ 1000 *including 0*;
the derived rating is 0 (unrated) only when the review block itself is
absent (and no positive metacritic score exists). -/
theorem C5_amended (f : Nat → Option GameDetails) (pd : String → Option ℚ) (now : ℚ)
    (id : Nat) (owned : List Nat) (tt tc : List String) (tw : List (String × Nat))
    (mr : Int) (pr : Option (ℚ × ℚ)) (ro : Bool) (d : GameDetails) (r : GameRec)
    (hd : f id = some d)
    (h : fetchAndProcessGame f pd now id owned tt tc tw mr pr ro = some r) :
    r.rating = (if 0 < d.metacritic then d.metacritic else steamRatingOf d.recTotal) ∧
    r.steam_rating = steamRatingOf d.recTotal ∧
    (d.recTotal = none → d.metacritic = 0 → r.rating = 0) ∧
    steamRatingOf (some 0) = 70 ∧ steamRatingOf none = 0 ∧
    (∀ t, t ≤ 1000 → steamRatingOf (some t) = 70) ∧
    (∀ t, 1000 < t → t ≤ 10000 → steamRatingOf (some t) = 75) ∧
    (∀ t, 10000 < t → t ≤ 50000 → steamRatingOf (some t) = 80) ∧
    (∀ t, 50000 < t → t ≤ 100000 → steamRatingOf (some t) = 85) ∧
    (∀ t, 100000 < t → steamRatingOf (some t) = 90) := by
  obtain ⟨_, _, hr, hs⟩ :=
    fetchAndProcessGame_fields f pd now id owned tt tc tw mr pr ro d r hd h
  refine ⟨by rw [hr]; rfl, hs, ?_, rfl, rfl, ?_, ?_, ?_, ?_, ?_⟩
  · intro h1 h2
    rw [hr]
    simp [ratingOf, h1, h2, steamRatingOf]
  all_goals intro t
  all_goals intro h1
  all_goals try intro h2
  all_goals rw [steamRatingOf]
  all_goals split_ifs <;> omega

/-- C5, witness: the amended theorem applied to the
`recommendations.total = 0` fixture. -/
theorem C5_amended_witness :
    c5Rec.rating = (if 0 < ({ sampleDetails "Quiet Game" ["A"] with
        recTotal := some 0 } : GameDetails).metacritic
      then ({ sampleDetails "Quiet Game" ["A"] with recTotal := some 0 } : GameDetails).metacritic
      else steamRatingOf ({ sampleDetails "Quiet Game" ["A"] with
        recTotal := some 0 } : GameDetails).recTotal) ∧
    c5Rec.steam_rating = steamRatingOf ({ sampleDetails "Quiet Game" ["A"] with
      recTotal := some 0 } : GameDetails).recTotal :=
  ⟨(C5_amended c5Fetch noParse 0 9 [] ["A"] [] [("A", 50)] 0 none false _ c5Rec
      (by with_unfolding_all decide) (by with_unfolding_all decide)).1,
   (C5_amended c5Fetch noParse 0 9 [] ["A"] [] [("A", 50)] 0 none false _ c5Rec
      (by with_unfolding_all decide) (by with_unfolding_all decide)).2.1⟩

/-! ## Claim C6 -/

/-- C6: every record the scorer produces has `match_score` in `[1, 10]`
(hence in `[0, 10]`), and every record in either output list of a
successful response has a nonzero score — members of the regular bucket
have score ≥ 4 and members of the sale bucket score ≥ 2. -/
theorem C6_score_invariant :
    (∀ f pd now id owned tt tc tw mr pr ro r,
      fetchAndProcessGame f pd now id owned tt tc tw mr pr ro = some r →
      0 < r.match_score ∧ r.match_score ≤ 10) ∧
    (∀ f pd now arr owned mr sb pr ro ap ac tg tt reg sal,
      getRecommendations f pd now arr owned mr sb pr ro = .success ap ac tg tt reg sal →
      (∀ g ∈ reg, 0 < g.match_score ∧ g.match_score ≤ 10 ∧ 4 ≤ g.match_score) ∧
      (∀ g ∈ sal, 0 < g.match_score ∧ g.match_score ≤ 10 ∧ 2 ≤ g.match_score)) := by
  have part1 : ∀ f pd now id owned tt tc tw mr pr ro r,
      fetchAndProcessGame f pd now id owned tt tc tw mr pr ro = some r →
      0 < r.match_score ∧ r.match_score ≤ 10 := by
    intro f pd now id owned tt tc tw mr pr ro r h
    rcases hf : f id with _ | d
    · exfalso
      simp [fetchAndProcessGame, hf] at h
    · obtain ⟨hms, hnz, _, _⟩ :=
        fetchAndProcessGame_fields f pd now id owned tt tc tw mr pr ro d r hf h
      rw [hms]
      refine ⟨Nat.pos_of_ne_zero hnz, ?_⟩
      simp only [matchScoreOf]
      exact Nat.min_le_left _ _
  refine ⟨part1, ?_⟩
  intro f pd now arr owned mr sb pr ro ap ac tg tt reg sal h
  obtain ⟨s, _, hreg, hsal⟩ :=
    getRecommendations_success f pd now arr owned mr sb pr ro ap ac tg tt reg sal h
  constructor
  · intro g hg
    rw [hreg] at hg
    have hg2 := List.take_subset _ _ hg
    rw [mem_sortRecs_snd] at hg2
    rw [regBucket, List.mem_filter] at hg2
    obtain ⟨hmem, hcond⟩ := hg2
    have h4 : 4 ≤ g.match_score := by
      have := (Bool.and_eq_true _ _ |>.mp hcond).2
      simpa using this
    obtain ⟨id, _, hpid⟩ := mem_collectDedup _ _ _ hmem
    simp only [candidateProc] at hpid
    obtain ⟨hpos, hle⟩ := part1 _ _ _ _ _ _ _ _ _ _ _ _ hpid
    exact ⟨hpos, hle, h4⟩
  · intro g hg
    rw [hsal] at hg
    have hg2 := List.take_subset _ _ hg
    rw [mem_sortRecs_fst] at hg2
    rw [saleBucket, List.mem_filter] at hg2
    obtain ⟨hmem, hcond⟩ := hg2
    have h2 : 2 ≤ g.match_score := by
      have := (Bool.and_eq_true _ _ |>.mp hcond).2
      simpa using this
    obtain ⟨id, _, hpid⟩ := mem_collectDedup _ _ _ hmem
    simp only [candidateProc] at hpid
    obtain ⟨hpos, hle⟩ := part1 _ _ _ _ _ _ _ _ _ _ _ _ hpid
    exact ⟨hpos, hle, h2⟩

/-- C6, witness: the bounds at the concrete C2 scorer fixture and the
concrete C9 pipeline run. -/
theorem C6_witness :
    (0 < c2Rec.match_score ∧ c2Rec.match_score ≤ 10) ∧
    ((∀ g ∈ c9Reg, 0 < g.match_score ∧ g.match_score ≤ 10 ∧ 4 ≤ g.match_score) ∧
     (∀ g ∈ c9Sal, 0 < g.match_score ∧ g.match_score ≤ 10 ∧ 2 ≤ g.match_score)) :=
  ⟨C6_score_invariant.1 c2Fetch noParse 0 42 [] ["A"] [] [("A", 45)] 0 none false c2Rec
      (by with_unfolding_all decide),
   C6_score_invariant.2 c9Fetch noParse 0 [100, 101, 102] c9Owned 0 "price" none false
      ((227 : ℚ)/300) 6 10 ["A", "B"] c9Reg c9Sal (by with_unfolding_all decide)⟩

/-! ## Claim C7 -/

/-- C7: the rating filter's effective minimum is `min_rating` off sale
and `max(0, min_rating − 20)` on sale, and a derived rating of 0 never
triggers the exclusion — in particular, for an unrated candidate (no
positive metacritic score, no review block) the scorer's outcome is
independent of `min_rating`. -/
theorem C7_rating_filter (rating : Nat) (mr mrOther : Int) (f : Nat → Option GameDetails)
    (pd : String → Option ℚ) (now : ℚ) (id : Nat) (owned : List Nat)
    (tt tc : List String) (tw : List (String × Nat)) (pr : Option (ℚ × ℚ)) (ro : Bool)
    (d : GameDetails) (hd : f id = some d) (hm : d.metacritic = 0)
    (hr : d.recTotal = none) :
    (ratingFilterExcludes rating mr true
      = (decide (0 < rating) && decide ((rating : Int) < max 0 (mr - 20)))) ∧
    (ratingFilterExcludes rating mr false
      = (decide (0 < rating) && decide ((rating : Int) < mr))) ∧
    ratingFilterExcludes 0 mr true = false ∧
    ratingFilterExcludes 0 mr false = false ∧
    fetchAndProcessGame f pd now id owned tt tc tw mr pr ro
      = fetchAndProcessGame f pd now id owned tt tc tw mrOther pr ro := by
  refine ⟨rfl, rfl, ratingFilterExcludes_zero mr true, ratingFilterExcludes_zero mr false, ?_⟩
  have h0 : ratingOf d = 0 := by
    simp [ratingOf, hm, hr, steamRatingOf]
  simp [fetchAndProcessGame, hd, h0, ratingFilterExcludes_zero]

/-- C7, witness: an unrated candidate is scored identically under
`min_rating = 70` and `min_rating = 0`. -/
theorem C7_witness :
    fetchAndProcessGame c2Fetch noParse 0 42 [] ["A"] [] [("A", 45)] 70 none false
      = fetchAndProcessGame c2Fetch noParse 0 42 [] ["A"] [] [("A", 45)] 0 none false :=
  (C7_rating_filter 50 70 0 c2Fetch noParse 0 42 [] ["A"] [] [("A", 45)] none false
    (sampleDetails "Some Game" ["A"]) (by with_unfolding_all decide) rfl rfl).2.2.2.2

/-! ## Claim C8 -/

/-- C8: the pipeline fails with the owned-games error (`NoOwnedGames`)
exactly when the engagement history is empty, and with the playtime error
(`NoEngagementData`) exactly when the history is non-empty but has no
record with positive usage; every error response carries one of these two
messages and nothing else (the error constructor holds a single message
and no recommendation data). -/
theorem C8_error_conditions (f : Nat → Option GameDetails) (pd : String → Option ℚ)
    (now : ℚ) (arr : List Nat) (owned : List EngagementRecord) (mr : Int)
    (sb : String) (pr : Option (ℚ × ℚ)) (ro : Bool) :
    (getRecommendations f pd now arr owned mr sb pr ro = .error msgNoOwnedGames ↔
      owned = []) ∧
    (getRecommendations f pd now arr owned mr sb pr ro = .error msgNoEngagementData ↔
      owned ≠ [] ∧ ∀ g ∈ owned, g.playtime_forever = 0) ∧
    (∀ m, getRecommendations f pd now arr owned mr sb pr ro = .error m →
      m = msgNoOwnedGames ∨ m = msgNoEngagementData) := by
  have key : ∀ m, getRecommendations f pd now arr owned mr sb pr ro = .error m ↔
      extractSignals f owned = .error m := by
    intro m
    rw [getRecommendations]
    rcases hE : extractSignals f owned with m' | s <;> simp [hE]
  have hne : msgNoOwnedGames ≠ msgNoEngagementData := by decide
  refine ⟨?_, ?_, ?_⟩
  · rw [key, extractSignals_error]
    constructor
    · rintro (⟨h1, _⟩ | ⟨_, _, h3⟩)
      · exact h1
      · exact absurd h3 hne
    · intro h
      exact Or.inl ⟨h, rfl⟩
  · rw [key, extractSignals_error]
    constructor
    · rintro (⟨_, h2⟩ | ⟨h1, h2, _⟩)
      · exact absurd h2 hne.symm
      · exact ⟨h1, h2⟩
    · rintro ⟨h1, h2⟩
      exact Or.inr ⟨h1, h2, rfl⟩
  · intro m hm
    rw [key, extractSignals_error] at hm
    rcases hm with ⟨_, rfl⟩ | ⟨_, _, rfl⟩
    · exact Or.inl rfl
    · exact Or.inr rfl

/-- C8, witness: the empty history and the all-zero-usage history produce
exactly the two error messages. -/
theorem C8_witness :
    getRecommendations c9Fetch noParse 0 [] [] 0 "match" none false
      = .error msgNoOwnedGames ∧
    getRecommendations c9Fetch noParse 0 [] [⟨1, 0⟩] 0 "match" none false
      = .error msgNoEngagementData :=
  ⟨(C8_error_conditions c9Fetch noParse 0 [] [] 0 "match" none false).1.mpr rfl,
   (C8_error_conditions c9Fetch noParse 0 [] [⟨1, 0⟩] 0 "match" none false).2.1.mpr
     ⟨by decide, by decide⟩⟩

/-! ## Claim C9 -/

/-- C9: in every successful response with `sort_by = "price"`, the
regular recommendations are sorted ascending by `price` — every
consecutive pair satisfies `price[i] ≤ price[i+1]`. -/
theorem C9_price_sorted (f : Nat → Option GameDetails) (pd : String → Option ℚ)
    (now : ℚ) (arr : List Nat) (owned : List EngagementRecord) (mr : Int)
    (pr : Option (ℚ × ℚ)) (ro : Bool) (ap : ℚ) (ac tg : Nat) (tt : List String)
    (reg sal : List GameRec)
    (h : getRecommendations f pd now arr owned mr "price" pr ro
        = .success ap ac tg tt reg sal) :
    reg.Chain' (fun a b => a.price ≤ b.price) := by
  obtain ⟨s, _, hreg, _⟩ :=
    getRecommendations_success f pd now arr owned mr "price" pr ro ap ac tg tt reg sal h
  have hsort : ∀ (a b : List GameRec), (sortRecs "price" a b).2
      = b.mergeSort (fun x y => decide (x.price ≤ y.price)) := by
    intro a b
    simp [sortRecs]
  rw [hreg, hsort]
  have h1 : ((regBucket (findMatchingGames
      (candidateProc f pd now owned s mr pr ro) arr)).mergeSort
        (fun x y => decide (x.price ≤ y.price))).Pairwise
      (fun x y => decide (x.price ≤ y.price) = true) := by
    refine List.sorted_mergeSort ?_ ?_ _
    · intro a b c hab hbc
      simp only [decide_eq_true_eq] at *
      exact le_trans hab hbc
    · intro a b
      simp only [Bool.or_eq_true, decide_eq_true_eq]
      exact le_total _ _
  have h2 := List.Pairwise.sublist (List.take_sublist 30 _) h1
  have h3 : (((regBucket (findMatchingGames
      (candidateProc f pd now owned s mr pr ro) arr)).mergeSort
        (fun x y => decide (x.price ≤ y.price))).take 30).Pairwise
      (fun x y : GameRec => x.price ≤ y.price) := by
    refine h2.imp ?_
    intro a b hab
    simpa using hab
  exact h3.chain'

/-- C9, witness: the sortedness of the regular bucket in the concrete
C9 pipeline run (prices 10 then 20). -/
theorem C9_witness : c9Reg.Chain' (fun a b => a.price ≤ b.price) :=
  C9_price_sorted c9Fetch noParse 0 [100, 101, 102] c9Owned 0 none false
    ((227 : ℚ)/300) 6 10 ["A", "B"] c9Reg c9Sal (by with_unfolding_all decide)

/-! ## Claim C10 -/

/-- C10: a failed detail fetch is never cached — on a cache miss with a
failing source the cache is returned unchanged and nothing is flushed, so
a later lookup misses again and re-attempts the fetch; only a successful
fetch appends an entry and flushes. -/
theorem C10_failed_fetch_not_cached (f : Nat → Option GameDetails) (now : ℚ)
    (cache : GameCache) (id : Nat) (d : GameDetails)
    (hmiss : cache.lookup id = none) :
    (f id = none → getGameDetailsCached f now cache id = (none, cache, false)) ∧
    (f id = some d → getGameDetailsCached f now cache id
      = (some d, cache ++ [(id, ⟨d, now⟩)], true)) := by
  constructor <;> intro hf <;> simp [getGameDetailsCached, hmiss, hf]

/-- C10, witness: the theorem applied to the empty cache with a failing
and a succeeding source. -/
theorem C10_witness :
    getGameDetailsCached (fun _ => none) 0 [] 7 = (none, [], false) ∧
    getGameDetailsCached (fun _ => some c3Detail) 5 [] 7
      = (some c3Detail, [(7, ⟨c3Detail, 5⟩)], true) :=
  ⟨(C10_failed_fetch_not_cached (fun _ => none) 0 [] 7 c3Detail rfl).1 rfl,
   (C10_failed_fetch_not_cached (fun _ => some c3Detail) 5 [] 7 c3Detail rfl).2 rfl⟩
